import Mathlib

/-!
Verification of the mmtui tournament-bracket viewer.

Shallow embedding of the Rust sources:
* `src/components/bracket.rs` — the pure bracket layout engine (`BracketGrid`).
* `api/src/lib.rs`            — the domain tree (`Tournament` … `Team`),
                                `RoundKind` navigation order, `Game::winner`,
                                `Tournament::merge_updates`.
* `api/src/client.rs`         — `candidate_tournament_years`,
                                `round_number_to_kind`, the bucketing round of
                                `map_ncaa_championship`, and the status
                                handling of `NcaaApi::get`.
* `src/state/app_state.rs`    — `BracketState` navigation controller and
                                `detect_active_round`.

Machine integers (`u16`, `u32`, `usize`) are modelled as `Nat`: every
arithmetic operation performed by the embedded code stays far below the
respective bounds (cell widths are clamped at 22, rows at 31, counts at 15),
and Rust `saturating_sub` coincides with truncated `Nat` subtraction.
`chrono::DateTime<Utc>` values are carried opaquely as `Int` timestamps —
no claim inspects them beyond equality.
-/

namespace Mmtui

-- ===========================================================================
-- RoundKind (api/src/lib.rs)
-- ===========================================================================

/-- The seven tournament stages, declared in the source's variant order
(`FirstFour` first, `Championship` last); Rust derives its total order from
this declaration order. -/
inductive RoundKind where
  | FirstFour
  | First
  | Second
  | Sweet16
  | Elite8
  | FinalFour
  | Championship
deriving DecidableEq, Repr

/-- Position of a stage in the declared total order (used to state
"one step up/down the order"). -/
def RoundKind.idx : RoundKind → Nat
  | .FirstFour => 0
  | .First => 1
  | .Second => 2
  | .Sweet16 => 3
  | .Elite8 => 4
  | .FinalFour => 5
  | .Championship => 6

/-- `RoundKind::prev` from api/src/lib.rs. -/
def RoundKind.prev : RoundKind → Option RoundKind
  | .FirstFour => none
  | .First => some .FirstFour
  | .Second => some .First
  | .Sweet16 => some .Second
  | .Elite8 => some .Sweet16
  | .FinalFour => some .Elite8
  | .Championship => some .FinalFour

/-- `RoundKind::next` from api/src/lib.rs. -/
def RoundKind.next : RoundKind → Option RoundKind
  | .FirstFour => some .First
  | .First => some .Second
  | .Second => some .Sweet16
  | .Sweet16 => some .Elite8
  | .Elite8 => some .FinalFour
  | .FinalFour => some .Championship
  | .Championship => none

/-- `RoundKind::is_final_four` from api/src/lib.rs:
`matches!(self, FinalFour | Championship)`. -/
def RoundKind.is_final_four : RoundKind → Bool
  | .FinalFour => true
  | .Championship => true
  | _ => false

-- ===========================================================================
-- Bracket layout engine (src/components/bracket.rs)
-- ===========================================================================

/-- `GAME_HEIGHT`: rows per game cell. -/
def GAME_HEIGHT : Nat := 3

/-- `SH`: slot heights per depth, `SH[0] = GAME_HEIGHT; SH[d] = 2*SH[d-1]+1`. -/
def SH : List Nat :=
  [GAME_HEIGHT,
   2 * GAME_HEIGHT + 1,
   2 * (2 * GAME_HEIGHT + 1) + 1,
   2 * (2 * (2 * GAME_HEIGHT + 1) + 1) + 1]

/-- `REGION_HEIGHT = SH[3]` (= 31). -/
def REGION_HEIGHT : Nat := SH.getD 3 0

/-- `CONNECTOR_WIDTH`: width of the connector zone between round columns. -/
def CONNECTOR_WIDTH : Nat := 3

/-- `CELL_W_FULL`: maximum game cell width. -/
def CELL_W_FULL : Nat := 22

/-- `GameCell`: pre-computed layout position for one game. -/
structure GameCell where
  center_row : Nat
  col : Nat
  cell_width : Nat
  draw_outbound_connector : Bool
  round : RoundKind
  game_idx : Nat
deriving DecidableEq, Repr

/-- `BracketGrid`: pre-computed layout for one 4-round regional bracket. -/
structure BracketGrid where
  cells : List GameCell
  round_cols : List Nat
  total_width : Nat
  total_height : Nat
  cell_width : Nat
  mirrored : Bool
  flipped : Bool
deriving DecidableEq, Repr

/-- `BracketGrid::compute_inner`, the shared layout engine.  The Rust
`for d in 0..4 { for i in 0..game_counts[d] { cells.push(...) } }` loop is
rendered as `flatMap`/`map` over `List.range`, pushing cells in the same
depth-major order. -/
def BracketGrid.compute_inner (terminal_width : Nat) (mirrored flipped : Bool) :
    BracketGrid :=
  let connector_total := CONNECTOR_WIDTH * 3
  let per_col := (terminal_width - connector_total) / 4
  let cell_width := min (max per_col 1) CELL_W_FULL
  let stride := cell_width + CONNECTOR_WIDTH
  let round_cols :=
    if mirrored then [stride * 3, stride * 2, stride, 0]
    else [0, stride, stride * 2, stride * 3]
  let total_width := stride * 3 + cell_width
  let first_center := [SH.getD 0 0 / 2, SH.getD 1 0 / 2, SH.getD 2 0 / 2, SH.getD 3 0 / 2]
  let spacing := [SH.getD 1 0 - SH.getD 0 0, SH.getD 2 0 - SH.getD 1 0,
                  SH.getD 3 0 - SH.getD 2 0, 0]
  let game_counts := [8, 4, 2, 1]
  let round_kinds := [RoundKind.First, RoundKind.Second, RoundKind.Sweet16, RoundKind.Elite8]
  let cells := (List.range 4).flatMap fun d =>
    (List.range (game_counts.getD d 0)).map fun i =>
      let center_normal := first_center.getD d 0 + i * spacing.getD d 0
      let center_row :=
        if flipped then (REGION_HEIGHT - 1) - center_normal else center_normal
      { center_row := center_row
        col := round_cols.getD d 0
        cell_width := cell_width
        draw_outbound_connector := decide (d < 3)
        round := round_kinds.getD d RoundKind.First
        game_idx := i }
  { cells := cells
    round_cols := round_cols
    total_width := total_width
    total_height := REGION_HEIGHT
    cell_width := cell_width
    mirrored := mirrored
    flipped := flipped }

/-- `BracketGrid::compute` (normal orientation). -/
def BracketGrid.compute (terminal_width : Nat) : BracketGrid :=
  BracketGrid.compute_inner terminal_width false false

/-- `BracketGrid::cells_for_depth`: the slice of `cells` for one depth,
via the fixed offsets `[0, 8, 12, 14, 15]`. -/
def BracketGrid.cells_for_depth (g : BracketGrid) (depth : Nat) : List GameCell :=
  let OFFSETS : List Nat := [0, 8, 12, 14, 15]
  (g.cells.drop (OFFSETS.getD depth 0)).take
    (OFFSETS.getD (depth + 1) 0 - OFFSETS.getD depth 0)

/-- Center row of the `i`-th cell at `depth` (0 when out of range). -/
def BracketGrid.centerAt (g : BracketGrid) (depth i : Nat) : Nat :=
  (((g.cells_for_depth depth)[i]?).map GameCell.center_row).getD 0

/-- Game counts per depth, `[8, 4, 2, 1]` as in `compute_inner`. -/
def gameCountAt (depth : Nat) : Nat := [8, 4, 2, 1].getD depth 0

-- ===========================================================================
-- Layout lemmas
-- ===========================================================================

/-- The center rows of the 15 cells, in push order, do not depend on the
terminal width or the mirrored flag; flipping reflects them in row 30. -/
lemma map_center_row (w : Nat) (m f : Bool) :
    (BracketGrid.compute_inner w m f).cells.map GameCell.center_row
    = if f then [29, 25, 21, 17, 13, 9, 5, 1, 27, 19, 11, 3, 23, 7, 15]
      else [1, 5, 9, 13, 17, 21, 25, 29, 3, 11, 19, 27, 7, 23, 15] := by
  cases f <;> rfl

/-- `centerAt` read through the row projection of the cell list. -/
lemma centerAt_eq_map (g : BracketGrid) (d i : Nat) :
    g.centerAt d i
    = ((((g.cells.map GameCell.center_row).drop
          (([0, 8, 12, 14, 15] : List Nat).getD d 0)).take
        (([0, 8, 12, 14, 15] : List Nat).getD (d + 1) 0
          - ([0, 8, 12, 14, 15] : List Nat).getD d 0))[i]?).getD 0 := by
  unfold BracketGrid.centerAt BracketGrid.cells_for_depth
  simp [← List.map_take, ← List.map_drop, List.getElem?_map]

/-- Every cell of `compute_inner` carries the grid's single cell width. -/
lemma cell_width_uniform (w : Nat) (m f : Bool) :
    ∀ c ∈ (BracketGrid.compute_inner w m f).cells,
      c.cell_width = (BracketGrid.compute_inner w m f).cell_width := by
  intro c hc
  have h2 : c.cell_width
      ∈ (BracketGrid.compute_inner w m f).cells.map GameCell.cell_width :=
    List.mem_map_of_mem _ hc
  rw [show (BracketGrid.compute_inner w m f).cells.map GameCell.cell_width
      = List.replicate 15 (BracketGrid.compute_inner w m f).cell_width from rfl] at h2
  exact List.eq_of_mem_replicate h2

-- ===========================================================================
-- C1 — parent center row is the midpoint of its children's center rows
-- ===========================================================================

/-- C1: For every terminal width and each of the four orientation variants
(mirrored and flipped in all combinations), every parent cell produced by
`BracketGrid::compute_inner` has `center_row` exactly equal to the arithmetic
midpoint of its two children's center rows:
`parent.center_row = (child_top.center_row + child_bot.center_row) / 2`,
where the children of the `j`-th parent at depth `d+1` are cells `2j` and
`2j+1` at depth `d`. -/
theorem parent_center_is_midpoint_of_children
    (w : Nat) (m f : Bool) (d j : Nat)
    (hd : d < 3) (hj : j < gameCountAt (d + 1)) :
    (BracketGrid.compute_inner w m f).centerAt (d + 1) j
    = ((BracketGrid.compute_inner w m f).centerAt d (2 * j)
       + (BracketGrid.compute_inner w m f).centerAt d (2 * j + 1)) / 2 := by
  rw [centerAt_eq_map, centerAt_eq_map, centerAt_eq_map, map_center_row]
  cases f
  all_goals {
    interval_cases d
    · have hj4 : j < 4 := hj
      interval_cases j <;> decide
    · have hj2 : j < 2 := hj
      interval_cases j <;> decide
    · have hj1 : j < 1 := hj
      interval_cases j
      decide
  }

/-- Witness for C1: the Elite8 parent of the flipped+mirrored grid at width 80
sits at the midpoint of its two Sweet16 children. -/
theorem parent_center_is_midpoint_of_children_witness :
    (BracketGrid.compute_inner 80 true true).centerAt 3 0
    = ((BracketGrid.compute_inner 80 true true).centerAt 2 (2 * 0)
       + (BracketGrid.compute_inner 80 true true).centerAt 2 (2 * 0 + 1)) / 2 :=
  parent_center_is_midpoint_of_children 80 true true 2 0 (by decide) (by decide)

-- ===========================================================================
-- C2 — 15 cells, clamped uniform cell width
-- ===========================================================================

/-- C2: For every terminal width (including widths smaller than the three
connector zones) and every orientation variant, `compute_inner` produces
exactly 15 cells (8 + 4 + 2 + 1 per depth), the cell width equals
`(terminal_width - 3 * CONNECTOR_WIDTH) / 4` (with saturating subtraction)
clamped to never fall below 1 and never exceed `CELL_W_FULL = 22`, and every
cell carries that same width. -/
theorem compute_inner_cell_count_and_width (w : Nat) (m f : Bool) :
    (BracketGrid.compute_inner w m f).cells.length = 15 ∧
    ((BracketGrid.compute_inner w m f).cells_for_depth 0).length = 8 ∧
    ((BracketGrid.compute_inner w m f).cells_for_depth 1).length = 4 ∧
    ((BracketGrid.compute_inner w m f).cells_for_depth 2).length = 2 ∧
    ((BracketGrid.compute_inner w m f).cells_for_depth 3).length = 1 ∧
    CELL_W_FULL = 22 ∧
    (BracketGrid.compute_inner w m f).cell_width
      = min (max ((w - 3 * CONNECTOR_WIDTH) / 4) 1) CELL_W_FULL ∧
    1 ≤ (BracketGrid.compute_inner w m f).cell_width ∧
    (BracketGrid.compute_inner w m f).cell_width ≤ CELL_W_FULL ∧
    ∀ c ∈ (BracketGrid.compute_inner w m f).cells,
      c.cell_width = (BracketGrid.compute_inner w m f).cell_width := by
  refine ⟨rfl, rfl, rfl, rfl, rfl, rfl, rfl, ?_, ?_, cell_width_uniform w m f⟩
  · exact Nat.le_min.mpr ⟨Nat.le_max_right _ 1, by norm_num [CELL_W_FULL]⟩
  · exact Nat.min_le_right _ _

/-- Witness for C2: at width 200 the cap 22 is reached, at width 5 the floor 1;
both grids have 15 cells. -/
theorem compute_inner_cell_count_and_width_witness :
    (BracketGrid.compute_inner 200 false false).cells.length = 15 ∧
    (BracketGrid.compute_inner 200 false false).cell_width = 22 ∧
    (BracketGrid.compute_inner 5 true false).cell_width = 1 := by
  refine ⟨(compute_inner_cell_count_and_width 200 false false).1, ?_, ?_⟩
  · rw [(compute_inner_cell_count_and_width 200 false false).2.2.2.2.2.2.1]
    decide
  · rw [(compute_inner_cell_count_and_width 5 true false).2.2.2.2.2.2.1]
    decide

-- ===========================================================================
-- Domain tree (api/src/lib.rs)
-- ===========================================================================

/-- `Team` from api/src/lib.rs. The Rust field `abbrev` is spelt `abbrv`
here because `abbrev` is a Lean keyword. -/
structure Team where
  id : String
  name : String
  short_name : String
  abbrv : String
  color : Option String
deriving DecidableEq, Repr

/-- `TeamSeed` from api/src/lib.rs (`seed: u8` as `Nat`). -/
structure TeamSeed where
  seed : Nat
  team : Option Team
  placeholder : Option String
deriving DecidableEq, Repr

/-- `GameStatus` from api/src/lib.rs. -/
inductive GameStatus where
  | Scheduled
  | InProgress
  | Final
  | Postponed
deriving DecidableEq, Repr

/-- `Game` from api/src/lib.rs. `score : (u16, u16)` as `Nat × Nat`,
`period : u8` as `Nat`, and the `chrono::DateTime<Utc>` start time as an
opaque `Int` timestamp (claims only compare it for equality). -/
structure Game where
  id : String
  top : TeamSeed
  bottom : TeamSeed
  status : GameStatus
  score : Option (Nat × Nat)
  winner_id : Option String
  period : Option Nat
  clock : Option String
  start_time : Option Int
  location : Option String
deriving DecidableEq, Repr

/-- `Round` from api/src/lib.rs. -/
structure Round where
  kind : RoundKind
  games : List Game
deriving DecidableEq, Repr

/-- `Region` from api/src/lib.rs. -/
structure Region where
  id : String
  name : String
  rounds : List Round
deriving DecidableEq, Repr

/-- `Tournament` from api/src/lib.rs (`year: u16` as `Nat`). -/
structure Tournament where
  id : String
  name : String
  year : Nat
  regions : List Region
deriving DecidableEq, Repr

/-- `Game::winner` from api/src/lib.rs:
`let winner_id = self.winner_id.as_deref()?;
 if self.top.team.as_ref().map(|t| t.id.as_str()) == Some(winner_id)
 { self.top.team.as_ref() } else { self.bottom.team.as_ref() }`. -/
def Game.winner (g : Game) : Option Team :=
  match g.winner_id with
  | none => none
  | some w => if g.top.team.map Team.id = some w then g.top.team else g.bottom.team

-- ===========================================================================
-- merge_updates (api/src/lib.rs) — find first game by id, replace in place
-- ===========================================================================

/-- Replace the first game of the list whose `id` equals `u.id` with `u`;
`none` when no game matches (the `find_game_mut` walk inside one `games`
list). -/
def replaceGame (u : Game) : List Game → Option (List Game)
  | [] => none
  | g :: gs => if g.id = u.id then some (u :: gs) else (replaceGame u gs).map (g :: ·)

/-- `find_game_mut`'s walk over the rounds of one region. -/
def replaceInRounds (u : Game) : List Round → Option (List Round)
  | [] => none
  | r :: rs =>
    match replaceGame u r.games with
    | some gs => some ({ r with games := gs } :: rs)
    | none => (replaceInRounds u rs).map (r :: ·)

/-- `find_game_mut`'s walk over the regions of the tournament. -/
def replaceInRegions (u : Game) : List Region → Option (List Region)
  | [] => none
  | reg :: regs =>
    match replaceInRounds u reg.rounds with
    | some rs => some ({ reg with rounds := rs } :: regs)
    | none => (replaceInRegions u regs).map (reg :: ·)

/-- One iteration of `Tournament::merge_updates`: {if let Some(game) =
self.find_game_mut(&update.id) \x7b *game = update; \x7d}. -/
def Tournament.mergeUpdate (t : Tournament) (u : Game) : Tournament :=
  match replaceInRegions u t.regions with
  | some rs => { t with regions := rs }
  | none => t

/-- `Tournament::merge_updates`: the `for update in updates` loop. -/
def Tournament.merge_updates (t : Tournament) (updates : List Game) : Tournament :=
  updates.foldl Tournament.mergeUpdate t

/-- All game ids of the tree, in walk order. -/
def Tournament.allGameIds (t : Tournament) : List String :=
  t.regions.flatMap fun reg => reg.rounds.flatMap fun r => r.games.map Game.id

/-- Apply `f` to every game of the tree, keeping the shape. -/
def Tournament.mapGames (f : Game → Game) (t : Tournament) : Tournament :=
  { t with
    regions := t.regions.map fun reg =>
      { reg with rounds := reg.rounds.map fun r =>
        { r with games := r.games.map f } } }

/-- The pointwise patch described by the spec: a game whose id matches an
update in the batch becomes that update; every other game is untouched. -/
def patchGame (updates : List Game) (g : Game) : Game :=
  (updates.find? fun u => u.id == g.id).getD g

-- ===========================================================================
-- Navigation controller (src/state/app_state.rs)
-- ===========================================================================

/-- `BracketState` from src/state/app_state.rs (`usize`/`u16` as `Nat`). -/
structure BracketState where
  tournament : Option Tournament
  current_round : RoundKind
  view_round : RoundKind
  selected_region : Nat
  selected_game : Nat
  scroll_offset : Nat
deriving DecidableEq, Repr

/-- `tournament.regions.iter().any(|reg| reg.rounds.iter().filter(|r| r.kind
== kind).flat_map(|r| r.games.iter()).any(|g| g.status == InProgress))`. -/
def hasLiveGame (t : Tournament) (kind : RoundKind) : Bool :=
  t.regions.any fun reg =>
    ((reg.rounds.filter fun r => r.kind == kind).flatMap fun r => r.games).any
      fun g => g.status == GameStatus.InProgress

/-- Same scan for `GameStatus::Final`. -/
def hasFinalGame (t : Tournament) (kind : RoundKind) : Bool :=
  t.regions.any fun reg =>
    ((reg.rounds.filter fun r => r.kind == kind).flatMap fun r => r.games).any
      fun g => g.status == GameStatus.Final

/-- The `round_order` array of `detect_active_round`. -/
def roundOrder : List RoundKind :=
  [.FirstFour, .First, .Second, .Sweet16, .Elite8, .FinalFour, .Championship]

/-- The `for kind in round_order` loop of `detect_active_round`, with the
running `last_with_games` accumulator: return `kind` as soon as a round has a
live game, otherwise remember the latest round with a final game. -/
def detectLoop (t : Tournament) : List RoundKind → RoundKind → RoundKind
  | [], last_with_games => last_with_games
  | kind :: rest, last_with_games =>
    if hasLiveGame t kind then kind
    else detectLoop t rest (if hasFinalGame t kind then kind else last_with_games)

/-- `detect_active_round` from src/state/app_state.rs
(`last_with_games` starts as `RoundKind::First`). -/
def detect_active_round (t : Tournament) : RoundKind :=
  detectLoop t roundOrder RoundKind.First

/-- Stated from the spec's words, to be compared with `detect_active_round`:
the first round in canonical order with any in-progress game wins; otherwise
the latest round with any final game; otherwise `First`. -/
def detectActiveRoundSpec (t : Tournament) : RoundKind :=
  match roundOrder.find? (fun kind => hasLiveGame t kind) with
  | some kind => kind
  | none =>
    match roundOrder.reverse.find? (fun kind => hasFinalGame t kind) with
    | some kind => kind
    | none => RoundKind.First

/-- `BracketState::load`: store the tournament, auto-detect the active round,
set the view round to it, and reset selection and scroll. -/
def BracketState.load (bs : BracketState) (t : Tournament) : BracketState :=
  { bs with
    current_round := detect_active_round t
    view_round := detect_active_round t
    selected_game := 0
    selected_region := 0
    scroll_offset := 0
    tournament := some t }

/-- `BracketState::merge_updates`: patch the tree in place and re-detect the
active round; cursor state untouched. No-op when no tournament is loaded. -/
def BracketState.merge_updates (bs : BracketState) (games : List Game) :
    BracketState :=
  match bs.tournament with
  | some t =>
    let t' := t.merge_updates games
    { bs with tournament := some t', current_round := detect_active_round t' }
  | none => bs

/-- `BracketState::navigate_round_next`. -/
def BracketState.navigate_round_next (bs : BracketState) : BracketState :=
  match bs.view_round.next with
  | some next => { bs with view_round := next, selected_game := 0, scroll_offset := 0 }
  | none => bs

/-- `BracketState::navigate_round_prev`. -/
def BracketState.navigate_round_prev (bs : BracketState) : BracketState :=
  match bs.view_round.prev with
  | some prev => { bs with view_round := prev, selected_game := 0, scroll_offset := 0 }
  | none => bs

/-- `BracketState::cycle_region`: `region_count` is
`regions.len().saturating_sub(1)` for a loaded tournament (4 otherwise), and
the selected region advances `mod region_count.max(1)`; no-op while the view
round `is_final_four()`. -/
def BracketState.cycle_region (bs : BracketState) : BracketState :=
  if bs.view_round.is_final_four then bs
  else
    let region_count :=
      match bs.tournament with
      | some t => t.regions.length - 1
      | none => 4
    { bs with
      selected_region := (bs.selected_region + 1) % max region_count 1
      selected_game := 0
      scroll_offset := 0 }

/-- Stated from the claim's words, to be compared with the code's
`regions.len().saturating_sub(1)`: the number of regions not named
"National". -/
def nonNationalRegionCount (t : Tournament) : Nat :=
  (t.regions.filter fun reg => reg.name ≠ "National").length

-- ===========================================================================
-- Client layer (api/src/client.rs)
-- ===========================================================================

/-- `round_number_to_kind` from api/src/client.rs. -/
def round_number_to_kind (number : Nat) : RoundKind :=
  match number with
  | 1 => .FirstFour
  | 2 => .First
  | 3 => .Second
  | 4 => .Sweet16
  | 5 => .Elite8
  | 6 => .FinalFour
  | 7 => .Championship
  | _ => .First

/-- The round under which `map_ncaa_championship` buckets a Shape A game:
`round_number_to_kind(g.bracket_position_id / 100)`. -/
def bucketRoundKind (bracket_position_id : Nat) : RoundKind :=
  round_number_to_kind (bracket_position_id / 100)

/-- The tens digit of a number, as named by the claim. -/
def tensDigit (n : Nat) : Nat := n / 10 % 10

/-- `season_tournament_year` from api/src/client.rs, on the (year, month) of
`now`: from November on, the season year is the next calendar year. -/
def season_tournament_year (year : Int) (month : Nat) : Int :=
  if month ≥ 11 then year + 1 else year

/-- Comparator of the final `sort_by` in `candidate_tournament_years`:
ascending absolute distance to the season year, ties broken by ascending
year. -/
def distLe (season_year : Int) (a b : Int) : Prop :=
  (a - season_year).natAbs < (b - season_year).natAbs ∨
    ((a - season_year).natAbs = (b - season_year).natAbs ∧ a ≤ b)

instance (season_year : Int) : DecidableRel (distLe season_year) := fun a b => by
  unfold distLe
  infer_instance

/-- `Vec::dedup`: collapse each run of consecutive equal elements to a single
element.  (Rust keeps the first element of a run and this recursion keeps the
last; the elements of a run are equal, so the resulting lists coincide.) -/
def dedupAdj : List Int → List Int
  | [] => []
  | [a] => [a]
  | a :: b :: l => if a = b then dedupAdj (b :: l) else a :: dedupAdj (b :: l)

/-- `candidate_tournament_years` from api/src/client.rs. Rust's
`sort_unstable` / `sort_by` are modelled by `List.insertionSort`: both
comparison relations are total preorders, the second is antisymmetric, and
ties of the first hold equal `Int` values, so every correct sort yields the
same list. `2025` is the fixed historical fallback year. -/
def candidate_tournament_years (year : Int) (month : Nat) : List Int :=
  let season_year := season_tournament_year year month
  let years := [season_year, season_year - 1, season_year + 1, 2025]
  let years := List.insertionSort (· ≤ ·) years
  let years := dedupAdj years
  List.insertionSort (distLe season_year) years

/-- Error taxonomy of the fetch layer (api/src/client.rs `ApiError`),
restricted to the variants `NcaaApi::get` can produce. -/
inductive ApiErrorKind where
  | Network
  | Api
  | Parsing
deriving DecidableEq, Repr

/-- Outcome of one HTTP attempt, as observed by `NcaaApi::get`: either the
transport fails, or a response arrives with a status code and a body whose
JSON decode yields `some` value or fails (`none`). -/
inductive HttpAttempt (B : Type) where
  | transportError
  | response (status : Nat) (body : Option B)

/-- `NcaaApi::get` from api/src/client.rs. `send()` failure maps to
`ApiError::Network`. `reqwest::Response::error_for_status` fails exactly on
client errors (status 400–499) and server errors (500–599); of those, client
errors are downgraded to `Ok(T::default())` and the rest become
`ApiError::Api`. Any other status proceeds to JSON decoding, which yields the
value or `ApiError::Parsing`. -/
def apiGet {B : Type} (dflt : B) : HttpAttempt B → Except ApiErrorKind B
  | .transportError => .error .Network
  | .response status body =>
    if 400 ≤ status ∧ status ≤ 599 then
      if 400 ≤ status ∧ status ≤ 499 then .ok dflt
      else .error .Api
    else
      match body with
      | some b => .ok b
      | none => .error .Parsing

-- ===========================================================================
-- C4 — Shape A bucketing round (corrected: hundreds digits, not tens)
-- ===========================================================================

/-- C4 counterexample: the claim says the bucketing round is read from the
tens digit of the bracket-position id.  At id 317 the tens digit is 1
(mapping to FirstFour) but `map_ncaa_championship` buckets by `317 / 100 = 3`
(mapping to Second), so the claim as stated is false. -/
theorem bucket_round_tens_digit_counterexample :
    bucketRoundKind 317 ≠ round_number_to_kind (tensDigit 317) := by decide

/-- C4 amended: the bucketing round of a Shape A game is
`round_number_to_kind(bracket_position_id / 100)` — the digits above the
tens and units — and `round_number_to_kind` maps 1..7 totally to
FirstFour..Championship, every other round number defaulting to First. -/
theorem bucket_round_and_kind_mapping :
    (∀ bracket_position_id : Nat,
      bucketRoundKind bracket_position_id
        = round_number_to_kind (bracket_position_id / 100)) ∧
    round_number_to_kind 1 = .FirstFour ∧
    round_number_to_kind 2 = .First ∧
    round_number_to_kind 3 = .Second ∧
    round_number_to_kind 4 = .Sweet16 ∧
    round_number_to_kind 5 = .Elite8 ∧
    round_number_to_kind 6 = .FinalFour ∧
    round_number_to_kind 7 = .Championship ∧
    round_number_to_kind 0 = .First ∧
    (∀ n : Nat, round_number_to_kind (n + 8) = .First) :=
  ⟨fun _ => rfl, rfl, rfl, rfl, rfl, rfl, rfl, rfl, rfl, fun _ => rfl⟩

-- ===========================================================================
-- C6 — round advance/retreat, clamped at the boundary
-- ===========================================================================

/-- C6: round advance moves the view round one step up the declared total
order and retreat one step down, resetting selected game and scroll offset to
zero on every successful move; `next` is `none` exactly at Championship and
`prev` exactly at FirstFour, and there the operations leave the whole state
unchanged (hence are idempotent at those boundaries). -/
theorem navigate_round_step_and_boundaries (bs : BracketState) :
    (∀ k, bs.view_round.next = some k →
      bs.navigate_round_next
          = { bs with view_round := k, selected_game := 0, scroll_offset := 0 }
        ∧ k.idx = bs.view_round.idx + 1) ∧
    (bs.view_round.next = none ↔ bs.view_round = .Championship) ∧
    (bs.view_round = .Championship → bs.navigate_round_next = bs) ∧
    (∀ k, bs.view_round.prev = some k →
      bs.navigate_round_prev
          = { bs with view_round := k, selected_game := 0, scroll_offset := 0 }
        ∧ k.idx + 1 = bs.view_round.idx) ∧
    (bs.view_round.prev = none ↔ bs.view_round = .FirstFour) ∧
    (bs.view_round = .FirstFour → bs.navigate_round_prev = bs) := by
  cases h : bs.view_round <;>
    simp [BracketState.navigate_round_next, BracketState.navigate_round_prev,
      RoundKind.next, RoundKind.prev, RoundKind.idx, h]

/-- Witness for C6: advancing from Championship is a no-op on a concrete
state. -/
theorem navigate_round_step_and_boundaries_witness :
    BracketState.navigate_round_next
        { tournament := none, current_round := .First,
          view_round := .Championship, selected_region := 2,
          selected_game := 3, scroll_offset := 4 }
      = { tournament := none, current_round := .First,
          view_round := .Championship, selected_region := 2,
          selected_game := 3, scroll_offset := 4 } :=
  (navigate_round_step_and_boundaries _).2.2.1 rfl

-- ===========================================================================
-- C8 — region cycling (corrected: modulo regions.len() - 1)
-- ===========================================================================

/-- A two-region tournament with no "National" region, refuting C8 as
stated. -/
def twoRegionTournament : Tournament :=
  { id := "t", name := "Test", year := 2025,
    regions :=
      [{ id := "east", name := "East", rounds := [] },
       { id := "west", name := "West", rounds := [] }] }

/-- Navigation state viewing the First round of `twoRegionTournament`. -/
def twoRegionState : BracketState :=
  { tournament := some twoRegionTournament, current_round := .First,
    view_round := .First, selected_region := 0, selected_game := 0,
    scroll_offset := 0 }

/-- C8 counterexample: the claim says the selected region advances modulo the
number of non-National regions.  On a loaded tournament whose two regions are
East and West (no National region), the code advances modulo
`regions.len() - 1 = 1` and stays at region 0, while the claimed modulus 2
would move to region 1. -/
theorem cycle_region_counterexample :
    (twoRegionState.cycle_region).selected_region
      ≠ (twoRegionState.selected_region + 1)
          % nonNationalRegionCount twoRegionTournament := by decide

/-- C8 amended: with a loaded tournament, cycling the region advances the
selected region index modulo `max (regions.len() - 1) 1` — which equals the
number of non-National regions whenever exactly one region is named
"National" — resetting selected game and scroll to zero, and is a no-op
(entire state unchanged) while the view round is FinalFour or
Championship. -/
theorem cycle_region_mod_and_final_four (bs : BracketState) (t : Tournament)
    (ht : bs.tournament = some t) :
    (bs.view_round.is_final_four = false →
      bs.cycle_region
        = { bs with
            selected_region := (bs.selected_region + 1) % max (t.regions.length - 1) 1,
            selected_game := 0, scroll_offset := 0 }) ∧
    (bs.view_round.is_final_four = true → bs.cycle_region = bs) := by
  constructor
  · intro hff
    simp [BracketState.cycle_region, hff, ht]
  · intro hff
    simp [BracketState.cycle_region, hff]

/-- Witness for C8's amended statement, on the concrete two-region state:
cycling stays at region 0 (modulo `max (2-1) 1 = 1`). -/
theorem cycle_region_mod_and_final_four_witness :
    twoRegionState.cycle_region
      = { twoRegionState with
          selected_region := (twoRegionState.selected_region + 1)
            % max (twoRegionTournament.regions.length - 1) 1,
          selected_game := 0, scroll_offset := 0 } :=
  (cycle_region_mod_and_final_four twoRegionState twoRegionTournament rfl).1 rfl

-- ===========================================================================
-- C9 — fetch-layer status handling (corrected: only 5xx yields Api)
-- ===========================================================================

/-- C9 counterexample: the claim says every non-2xx, non-client-error
response yields a typed error.  A status-300 response with a decodable body
is neither 2xx nor a client error, yet `NcaaApi::get` returns it as a
success: `error_for_status` only fails on 4xx/5xx, so 1xx/3xx fall through to
JSON decoding. -/
theorem apiGet_non2xx_counterexample :
    ¬ (∀ (status : Nat) (body : Option Bool),
        ¬(200 ≤ status ∧ status ≤ 299) → ¬(400 ≤ status ∧ status ≤ 499) →
        ∃ e, apiGet false (HttpAttempt.response status body) = .error e) := by
  intro h
  rcases h 300 (some true) (by omega) (by omega) with ⟨e, he⟩
  simp [apiGet] at he

/-- C9 amended: a transport failure yields the Network error and a
server-error (5xx) response yields the Api error (each of which makes the
provider chain advance); a client-error (4xx) response yields a successful
default value; any other status (2xx, 3xx, or out of range) proceeds to body
decoding — success on a decodable body, Parsing error otherwise. -/
theorem apiGet_status_behavior {B : Type} (dflt : B) :
    (apiGet dflt (HttpAttempt.transportError (B := B)) = .error .Network) ∧
    (∀ status (body : Option B), 400 ≤ status → status ≤ 499 →
       apiGet dflt (.response status body) = .ok dflt) ∧
    (∀ status (body : Option B), 500 ≤ status → status ≤ 599 →
       apiGet dflt (.response status body) = .error .Api) ∧
    (∀ status (b : B), ¬(400 ≤ status ∧ status ≤ 599) →
       apiGet dflt (.response status (some b)) = .ok b) ∧
    (∀ status, ¬(400 ≤ status ∧ status ≤ 599) →
       apiGet dflt (.response status (none : Option B)) = .error .Parsing) := by
  refine ⟨rfl, ?_, ?_, ?_, ?_⟩
  · intro s body h1 h2
    simp only [apiGet]
    rw [if_pos ⟨h1, by omega⟩, if_pos ⟨h1, h2⟩]
  · intro s body h1 h2
    simp only [apiGet]
    rw [if_pos ⟨by omega, h2⟩, if_neg (by omega)]
  · intro s b h
    simp only [apiGet]
    rw [if_neg h]
  · intro s h
    simp only [apiGet]
    rw [if_neg h]

/-- Witness for C9's amended statement: a 404 yields the default, a 503 the
Api error, a 300 with a decodable body succeeds, a 200 with an undecodable
body yields the Parsing error. -/
theorem apiGet_status_behavior_witness :
    apiGet false (HttpAttempt.response 404 (none : Option Bool)) = .ok false ∧
    apiGet false (HttpAttempt.response 503 (some true)) = .error .Api ∧
    apiGet false (HttpAttempt.response 300 (some true)) = .ok true ∧
    apiGet false (HttpAttempt.response 200 (none : Option Bool)) = .error .Parsing :=
  ⟨(apiGet_status_behavior false).2.1 404 none (by omega) (by omega),
   (apiGet_status_behavior false).2.2.1 503 (some true) (by omega) (by omega),
   (apiGet_status_behavior false).2.2.2.1 300 true (by omega),
   (apiGet_status_behavior false).2.2.2.2 200 (by omega)⟩

-- ===========================================================================
-- C10 — Game::winner falls back to the bottom slot
-- ===========================================================================

/-- C10: when `winner_id` is `Some(w)`, `winner()` returns the top slot's
team when that slot is resolved with id `w`; in every other case it returns
the bottom slot's team whenever that slot is resolved — including when the
bottom team's id differs from `w` — and it returns `None` exactly when the
top slot does not match and the bottom slot is unresolved.  When `winner_id`
is absent the result is `None`. -/
theorem winner_prefers_top_else_bottom (g : Game) :
    (g.winner_id = none → g.winner = none) ∧
    (∀ w, g.winner_id = some w →
      (((∃ t, g.top.team = some t ∧ t.id = w) → g.winner = g.top.team) ∧
       ((¬ ∃ t, g.top.team = some t ∧ t.id = w) → g.winner = g.bottom.team) ∧
       (g.winner = none ↔
         ((¬ ∃ t, g.top.team = some t ∧ t.id = w) ∧ g.bottom.team = none)))) := by
  constructor
  · intro h
    simp [Game.winner, h]
  · intro w hw
    cases htop : g.top.team with
    | none =>
      cases hbot : g.bottom.team <;>
        simp [Game.winner, hw, htop, hbot]
    | some t =>
      by_cases hid : t.id = w
      · simp [Game.winner, hw, htop, hid]
      · cases hbot : g.bottom.team <;>
          simp [Game.winner, hw, htop, hbot, hid]

/-- Witness for C10 at a concrete game: the winner id matches neither slot,
yet `winner()` returns the bottom team. -/
theorem winner_prefers_top_else_bottom_witness :
    Game.winner
        { id := "g1",
          top := { seed := 1,
                   team := some { id := "A", name := "Alpha", short_name := "Alp",
                                  abbrv := "ALP", color := none },
                   placeholder := none },
          bottom := { seed := 2,
                      team := some { id := "B", name := "Beta", short_name := "Bet",
                                     abbrv := "BET", color := none },
                      placeholder := none },
          status := .Final, score := none, winner_id := some "C",
          period := none, clock := none, start_time := none, location := none }
      = some { id := "B", name := "Beta", short_name := "Bet",
               abbrv := "BET", color := none } := by
  have h := (winner_prefers_top_else_bottom
    { id := "g1",
      top := { seed := 1,
               team := some { id := "A", name := "Alpha", short_name := "Alp",
                              abbrv := "ALP", color := none },
               placeholder := none },
      bottom := { seed := 2,
                  team := some { id := "B", name := "Beta", short_name := "Bet",
                                 abbrv := "BET", color := none },
                  placeholder := none },
      status := .Final, score := none, winner_id := some "C",
      period := none, clock := none, start_time := none, location := none }).2
    "C" rfl
  exact h.2.1 (by simp)

-- ===========================================================================
-- C5 — active-round detection and load
-- ===========================================================================

/-- `find?` over an append: the left list wins when it has a hit. -/
lemma find?_append_or {α : Type} (p : α → Bool) (l₁ l₂ : List α) :
    (l₁ ++ l₂).find? p
      = match l₁.find? p with
        | some a => some a
        | none => l₂.find? p := by
  induction l₁ with
  | nil => simp
  | cons a l ih =>
    by_cases h : p a
    · simp [List.find?_cons_of_pos _ h]
    · simp [List.find?_cons_of_neg _ h, ih]

/-- The `detect_active_round` loop returns the first round of `ks` with a
live game; failing that, the last round of `ks` with a final game; failing
that, the accumulator. -/
lemma detectLoop_eq_spec (t : Tournament) :
    ∀ (ks : List RoundKind) (acc : RoundKind),
      detectLoop t ks acc
        = match ks.find? (fun k => hasLiveGame t k) with
          | some k => k
          | none => (ks.reverse.find? (fun k => hasFinalGame t k)).getD acc := by
  intro ks
  induction ks with
  | nil => intro acc; rfl
  | cons k rest ih =>
    intro acc
    cases hl : hasLiveGame t k with
    | true => simp [detectLoop, hl, List.find?_cons_of_pos]
    | false =>
      simp only [detectLoop, hl, Bool.false_eq_true, if_false]
      rw [ih, List.reverse_cons, List.find?_cons_of_neg _ (by simp [hl])]
      cases hfind : rest.find? (fun k => hasLiveGame t k) with
      | some k₁ => rfl
      | none =>
        rw [find?_append_or]
        cases hrf : rest.reverse.find? (fun k => hasFinalGame t k) with
        | some j => rfl
        | none => cases hf : hasFinalGame t k <;> simp [hf]

/-- C5: `detect_active_round` equals its specification — scanning rounds in
canonical order, the first round with any InProgress game wins; otherwise the
latest round with any Final game; otherwise `First` — and `BracketState::load`
sets both the current and the view round to the detected round while
resetting selected game, selected region and scroll offset to zero and
storing the tournament. -/
theorem detect_active_round_and_load (t : Tournament) (bs : BracketState) :
    detect_active_round t = detectActiveRoundSpec t ∧
    (bs.load t).view_round = detect_active_round t ∧
    (bs.load t).current_round = detect_active_round t ∧
    (bs.load t).selected_game = 0 ∧
    (bs.load t).selected_region = 0 ∧
    (bs.load t).scroll_offset = 0 ∧
    (bs.load t).tournament = some t := by
  refine ⟨?_, rfl, rfl, rfl, rfl, rfl, rfl⟩
  unfold detect_active_round detectActiveRoundSpec
  rw [detectLoop_eq_spec]
  cases hfind : roundOrder.find? (fun k => hasLiveGame t k) with
  | some k => rfl
  | none =>
    cases hrf : roundOrder.reverse.find? (fun k => hasFinalGame t k) with
    | some j => rfl
    | none => rfl

-- ===========================================================================
-- C7 — candidate tournament years
-- ===========================================================================

instance (season_year : Int) : IsTotal Int (distLe season_year) :=
  ⟨by intro a b; unfold distLe; omega⟩

instance (season_year : Int) : IsTrans Int (distLe season_year) :=
  ⟨by intro a b c hab hbc; unfold distLe at *; omega⟩

/-- `dedupAdj` never changes membership: a dropped element equals the kept
element right before it. -/
lemma mem_dedupAdj : ∀ (l : List Int) (x : Int), x ∈ dedupAdj l ↔ x ∈ l := by
  intro l
  induction l using dedupAdj.induct with
  | case1 => simp [dedupAdj]
  | case2 a => simp [dedupAdj]
  | case3 b l ih =>
    intro x
    rw [dedupAdj, if_pos rfl]
    simp only [List.mem_cons, ih x]
    tauto
  | case4 a b l h ih =>
    intro x
    rw [dedupAdj, if_neg h]
    simp only [List.mem_cons, ih x]

/-- `dedupAdj` of a `≤`-sorted list is `<`-sorted. -/
lemma pairwise_lt_dedupAdj :
    ∀ l : List Int, l.Pairwise (· ≤ ·) → (dedupAdj l).Pairwise (· < ·) := by
  intro l
  induction l using dedupAdj.induct with
  | case1 => intro _; simp [dedupAdj]
  | case2 a => intro _; simp [dedupAdj]
  | case3 b l ih =>
    intro hp
    rw [dedupAdj, if_pos rfl]
    exact ih hp.of_cons
  | case4 a b l h ih =>
    intro hp
    rw [dedupAdj, if_neg h]
    rcases List.pairwise_cons.mp hp with ⟨ha, hrest⟩
    refine List.pairwise_cons.mpr ⟨?_, ih hrest⟩
    intro y hy
    have hy' : y ∈ b :: l := (mem_dedupAdj _ y).mp hy
    have hab : a < b := lt_of_le_of_ne (ha b (List.mem_cons_self b l)) h
    rcases List.mem_cons.mp hy' with rfl | hyl
    · exact hab
    · rcases List.pairwise_cons.mp hrest with ⟨hb, -⟩
      exact lt_of_lt_of_le hab (hb y hyl)

/-- C7: for every `now` (year, month), the candidate year list built by
`candidate_tournament_years` has no duplicates, contains the fixed historical
fallback year 2025, is sorted by ascending absolute distance from the season
year with ties broken by ascending year value, and consists exactly of
{season year, season year - 1, season year + 1, 2025}; for season year 2026
(e.g. now = 2026-02-24) the list is [2026, 2025, 2027]. -/
theorem candidate_tournament_years_properties (year : Int) (month : Nat) :
    (candidate_tournament_years year month).Nodup ∧
    (2025 : Int) ∈ candidate_tournament_years year month ∧
    (candidate_tournament_years year month).Pairwise
      (distLe (season_tournament_year year month)) ∧
    (∀ x : Int, x ∈ candidate_tournament_years year month ↔
      (x = season_tournament_year year month ∨
       x = season_tournament_year year month - 1 ∨
       x = season_tournament_year year month + 1 ∨
       x = 2025)) ∧
    candidate_tournament_years 2026 2 = [2026, 2025, 2027] := by
  have hmem : ∀ x : Int, x ∈ candidate_tournament_years year month ↔
      x ∈ [season_tournament_year year month,
           season_tournament_year year month - 1,
           season_tournament_year year month + 1, (2025 : Int)] := by
    intro x
    unfold candidate_tournament_years
    rw [List.mem_insertionSort, mem_dedupAdj, List.mem_insertionSort]
  refine ⟨?_, ?_, ?_, ?_, by decide⟩
  · unfold candidate_tournament_years
    refine ((List.perm_insertionSort _ _).nodup_iff).mpr ?_
    refine List.Pairwise.imp (fun h => ne_of_lt h) ?_
    exact pairwise_lt_dedupAdj _ (List.sorted_insertionSort _ _)
  · exact (hmem 2025).mpr (by simp)
  · unfold candidate_tournament_years
    exact List.sorted_insertionSort _ _
  · intro x
    rw [hmem x]
    simp [List.mem_cons]

-- ===========================================================================
-- C3 — merge_updates lemma stack
-- ===========================================================================

/-- `patchGame` with a singleton batch: replace the game iff the id
matches. -/
lemma patchGame_singleton (u g : Game) :
    patchGame [u] g = if u.id = g.id then u else g := by
  by_cases h : u.id = g.id <;> simp [patchGame, h]

/-- `patchGame` with an empty batch changes nothing. -/
lemma patchGame_nil (g : Game) : patchGame [] g = g := rfl

/-- The `find_game_mut` walk over a games list misses exactly when no game
carries the update's id. -/
lemma replaceGame_none_iff (u : Game) (gs : List Game) :
    replaceGame u gs = none ↔ ∀ g ∈ gs, g.id ≠ u.id := by
  induction gs with
  | nil => simp [replaceGame]
  | cons g gs ih =>
    by_cases h : g.id = u.id
    · simp [replaceGame, h]
    · simp [replaceGame, h, ih]

/-- A hit of the walk means some game carries the update's id. -/
lemma replaceGame_some_mem (u : Game) (gs gs' : List Game)
    (h : replaceGame u gs = some gs') : ∃ g ∈ gs, g.id = u.id := by
  induction gs generalizing gs' with
  | nil => simp [replaceGame] at h
  | cons g gs ih =>
    by_cases hid : g.id = u.id
    · exact ⟨g, List.mem_cons_self g gs, hid⟩
    · rw [replaceGame, if_neg hid] at h
      rcases Option.map_eq_some'.mp h with ⟨gs₁, hgs₁, -⟩
      rcases ih gs₁ hgs₁ with ⟨g₁, hmem, hid₁⟩
      exact ⟨g₁, List.mem_cons_of_mem g hmem, hid₁⟩

/-- Replacing a game by an update with the same id keeps the id list. -/
lemma replaceGame_some_ids (u : Game) (gs gs' : List Game)
    (h : replaceGame u gs = some gs') :
    gs'.map Game.id = gs.map Game.id := by
  induction gs generalizing gs' with
  | nil => simp [replaceGame] at h
  | cons g gs ih =>
    by_cases hid : g.id = u.id
    · rw [replaceGame, if_pos hid] at h
      cases h
      simp [hid]
    · rw [replaceGame, if_neg hid] at h
      rcases Option.map_eq_some'.mp h with ⟨gs₁, hgs₁, hcons⟩
      subst hcons
      simp [ih gs₁ hgs₁]

/-- A games list without the update's id is untouched by the singleton
patch. -/
lemma map_patchGame_of_no_match (u : Game) (gs : List Game)
    (h : ∀ g ∈ gs, g.id ≠ u.id) :
    gs.map (patchGame [u]) = gs := by
  induction gs with
  | nil => rfl
  | cons g gs ih =>
    have hg : u.id ≠ g.id := fun he => h g (List.mem_cons_self g gs) he.symm
    rw [List.map_cons, patchGame_singleton, if_neg hg,
      ih fun g₁ h₁ => h g₁ (List.mem_cons_of_mem g h₁)]

/-- With distinct game ids, replacing the first hit agrees with the
pointwise singleton patch of the whole list. -/
lemma replaceGame_some_eq (u : Game) (gs gs' : List Game)
    (h : replaceGame u gs = some gs')
    (hnd : (gs.map Game.id).Nodup) :
    gs' = gs.map (patchGame [u]) := by
  induction gs generalizing gs' with
  | nil => simp [replaceGame] at h
  | cons g gs ih =>
    rcases List.nodup_cons.mp hnd with ⟨hni, hnd₁⟩
    by_cases hid : g.id = u.id
    · rw [replaceGame, if_pos hid] at h
      cases h
      rw [List.map_cons, patchGame_singleton, if_pos hid.symm,
        map_patchGame_of_no_match u gs]
      intro g₁ h₁ he
      refine hni ?_
      rw [hid, ← he]
      exact List.mem_map_of_mem Game.id h₁
    · rw [replaceGame, if_neg hid] at h
      rcases Option.map_eq_some'.mp h with ⟨gs₁, hgs₁, hcons⟩
      subst hcons
      rw [List.map_cons, patchGame_singleton, if_neg fun he => hid he.symm,
        ih gs₁ hgs₁ hnd₁]

/-- The rounds-level walk misses exactly when no round's games carry the
update's id. -/
lemma replaceInRounds_none_iff (u : Game) (rs : List Round) :
    replaceInRounds u rs = none ↔ ∀ r ∈ rs, ∀ g ∈ r.games, g.id ≠ u.id := by
  induction rs with
  | nil => simp [replaceInRounds]
  | cons r rs ih =>
    cases hg : replaceGame u r.games with
    | some gs =>
      simp only [replaceInRounds, hg]
      constructor
      · intro h; cases h
      · intro hall
        rcases replaceGame_some_mem u r.games gs hg with ⟨g, hmem, hid⟩
        exact absurd hid (hall r (List.mem_cons_self r rs) g hmem)
    | none =>
      have hr : ∀ g ∈ r.games, g.id ≠ u.id := (replaceGame_none_iff u r.games).mp hg
      rw [replaceInRounds, hg]
      simp only [Option.map_eq_none', ih, List.forall_mem_cons]
      exact ⟨fun h1 => ⟨hr, h1⟩, fun h => h.2⟩

/-- A rounds-level hit means some game of some round carries the id. -/
lemma replaceInRounds_some_mem (u : Game) (rs rs' : List Round)
    (h : replaceInRounds u rs = some rs') :
    ∃ r ∈ rs, ∃ g ∈ r.games, g.id = u.id := by
  induction rs generalizing rs' with
  | nil => simp [replaceInRounds] at h
  | cons r rs ih =>
    cases hg : replaceGame u r.games with
    | some gs =>
      rcases replaceGame_some_mem u r.games gs hg with ⟨g, hmem, hid⟩
      exact ⟨r, List.mem_cons_self r rs, g, hmem, hid⟩
    | none =>
      rw [replaceInRounds, hg] at h
      rcases Option.map_eq_some'.mp h with ⟨rs₁, hrs₁, -⟩
      rcases ih rs₁ hrs₁ with ⟨r₁, hmem, hrest⟩
      exact ⟨r₁, List.mem_cons_of_mem r hmem, hrest⟩

/-- The rounds-level walk keeps the flattened id list. -/
lemma replaceInRounds_some_ids (u : Game) (rs rs' : List Round)
    (h : replaceInRounds u rs = some rs') :
    (rs'.flatMap fun r => r.games.map Game.id)
      = rs.flatMap fun r => r.games.map Game.id := by
  induction rs generalizing rs' with
  | nil => simp [replaceInRounds] at h
  | cons r rs ih =>
    cases hg : replaceGame u r.games with
    | some gs =>
      rw [replaceInRounds, hg] at h
      cases h
      simp [replaceGame_some_ids u r.games gs hg]
    | none =>
      rw [replaceInRounds, hg] at h
      rcases Option.map_eq_some'.mp h with ⟨rs₁, hrs₁, hcons⟩
      subst hcons
      simp [ih rs₁ hrs₁]

/-- Rounds without the update's id are untouched by the singleton patch. -/
lemma map_roundPatch_of_no_match (u : Game) (rs : List Round)
    (h : ∀ r ∈ rs, ∀ g ∈ r.games, g.id ≠ u.id) :
    (rs.map fun r => { r with games := r.games.map (patchGame [u]) }) = rs := by
  induction rs with
  | nil => rfl
  | cons r rs ih =>
    rw [List.map_cons, map_patchGame_of_no_match u r.games (h r (List.mem_cons_self r rs)),
      ih fun r₁ h₁ => h r₁ (List.mem_cons_of_mem r h₁)]

/-- With distinct ids across the rounds, the rounds-level walk agrees with
the pointwise singleton patch. -/
lemma replaceInRounds_some_eq (u : Game) (rs rs' : List Round)
    (h : replaceInRounds u rs = some rs')
    (hnd : (rs.flatMap fun r => r.games.map Game.id).Nodup) :
    rs' = rs.map fun r => { r with games := r.games.map (patchGame [u]) } := by
  induction rs generalizing rs' with
  | nil => simp [replaceInRounds] at h
  | cons r rs ih =>
    rw [List.flatMap_cons] at hnd
    rcases List.nodup_append.mp hnd with ⟨hnd₁, hnd₂, hdisj⟩
    cases hg : replaceGame u r.games with
    | some gs =>
      rw [replaceInRounds, hg] at h
      cases h
      rcases replaceGame_some_mem u r.games gs hg with ⟨g, hmem, hid⟩
      rw [List.map_cons, ← replaceGame_some_eq u r.games gs hg hnd₁,
        map_roundPatch_of_no_match u rs]
      intro r₁ h₁ g₁ hg₁ he
      refine hdisj (a := u.id) ?_ ?_
      · exact hid ▸ List.mem_map_of_mem Game.id hmem
      · exact List.mem_flatMap.mpr ⟨r₁, h₁, he ▸ List.mem_map_of_mem Game.id hg₁⟩
    | none =>
      rw [replaceInRounds, hg] at h
      rcases Option.map_eq_some'.mp h with ⟨rs₁, hrs₁, hcons⟩
      subst hcons
      rw [List.map_cons,
        map_patchGame_of_no_match u r.games ((replaceGame_none_iff u r.games).mp hg),
        ih rs₁ hrs₁ hnd₂]

/-- The regions-level walk misses exactly when no game of the tree carries
the update's id. -/
lemma replaceInRegions_none_iff (u : Game) (regs : List Region) :
    replaceInRegions u regs = none
      ↔ ∀ reg ∈ regs, ∀ r ∈ reg.rounds, ∀ g ∈ r.games, g.id ≠ u.id := by
  induction regs with
  | nil => simp [replaceInRegions]
  | cons reg regs ih =>
    cases hr : replaceInRounds u reg.rounds with
    | some rs =>
      simp only [replaceInRegions, hr]
      constructor
      · intro h; cases h
      · intro hall
        rcases replaceInRounds_some_mem u reg.rounds rs hr with ⟨r, hrm, g, hgm, hid⟩
        exact absurd hid (hall reg (List.mem_cons_self reg regs) r hrm g hgm)
    | none =>
      have hreg : ∀ r ∈ reg.rounds, ∀ g ∈ r.games, g.id ≠ u.id :=
        (replaceInRounds_none_iff u reg.rounds).mp hr
      rw [replaceInRegions, hr]
      simp only [Option.map_eq_none', ih, List.forall_mem_cons]
      exact ⟨fun h1 => ⟨hreg, h1⟩, fun h => h.2⟩

/-- A regions-level hit means some game of the tree carries the id. -/
lemma replaceInRegions_some_mem (u : Game) (regs regs' : List Region)
    (h : replaceInRegions u regs = some regs') :
    ∃ reg ∈ regs, ∃ r ∈ reg.rounds, ∃ g ∈ r.games, g.id = u.id := by
  induction regs generalizing regs' with
  | nil => simp [replaceInRegions] at h
  | cons reg regs ih =>
    cases hr : replaceInRounds u reg.rounds with
    | some rs =>
      rcases replaceInRounds_some_mem u reg.rounds rs hr with ⟨r, hrm, hg⟩
      exact ⟨reg, List.mem_cons_self reg regs, r, hrm, hg⟩
    | none =>
      rw [replaceInRegions, hr] at h
      rcases Option.map_eq_some'.mp h with ⟨regs₁, hregs₁, -⟩
      rcases ih regs₁ hregs₁ with ⟨reg₁, hmem, hrest⟩
      exact ⟨reg₁, List.mem_cons_of_mem reg hmem, hrest⟩

/-- The regions-level walk keeps the flattened id list. -/
lemma replaceInRegions_some_ids (u : Game) (regs regs' : List Region)
    (h : replaceInRegions u regs = some regs') :
    (regs'.flatMap fun reg => reg.rounds.flatMap fun r => r.games.map Game.id)
      = regs.flatMap fun reg => reg.rounds.flatMap fun r => r.games.map Game.id := by
  induction regs generalizing regs' with
  | nil => simp [replaceInRegions] at h
  | cons reg regs ih =>
    cases hr : replaceInRounds u reg.rounds with
    | some rs =>
      rw [replaceInRegions, hr] at h
      cases h
      simp [replaceInRounds_some_ids u reg.rounds rs hr]
    | none =>
      rw [replaceInRegions, hr] at h
      rcases Option.map_eq_some'.mp h with ⟨regs₁, hregs₁, hcons⟩
      subst hcons
      simp [ih regs₁ hregs₁]

/-- Regions without the update's id are untouched by the singleton patch. -/
lemma map_regionPatch_of_no_match (u : Game) (regs : List Region)
    (h : ∀ reg ∈ regs, ∀ r ∈ reg.rounds, ∀ g ∈ r.games, g.id ≠ u.id) :
    (regs.map fun reg =>
        { reg with rounds := reg.rounds.map fun r =>
            { r with games := r.games.map (patchGame [u]) } }) = regs := by
  induction regs with
  | nil => rfl
  | cons reg regs ih =>
    rw [List.map_cons,
      map_roundPatch_of_no_match u reg.rounds (h reg (List.mem_cons_self reg regs)),
      ih fun reg₁ h₁ => h reg₁ (List.mem_cons_of_mem reg h₁)]

/-- With distinct ids across the tree, the regions-level walk agrees with the
pointwise singleton patch. -/
lemma replaceInRegions_some_eq (u : Game) (regs regs' : List Region)
    (h : replaceInRegions u regs = some regs')
    (hnd : (regs.flatMap fun reg =>
        reg.rounds.flatMap fun r => r.games.map Game.id).Nodup) :
    regs' = regs.map fun reg =>
      { reg with rounds := reg.rounds.map fun r =>
          { r with games := r.games.map (patchGame [u]) } } := by
  induction regs generalizing regs' with
  | nil => simp [replaceInRegions] at h
  | cons reg regs ih =>
    rw [List.flatMap_cons] at hnd
    rcases List.nodup_append.mp hnd with ⟨hnd₁, hnd₂, hdisj⟩
    cases hr : replaceInRounds u reg.rounds with
    | some rs =>
      rw [replaceInRegions, hr] at h
      cases h
      rcases replaceInRounds_some_mem u reg.rounds rs hr with ⟨r, hrm, g, hgm, hid⟩
      rw [List.map_cons, ← replaceInRounds_some_eq u reg.rounds rs hr hnd₁,
        map_regionPatch_of_no_match u regs]
      intro reg₁ h₁ r₁ hr₁ g₁ hg₁ he
      refine hdisj (a := u.id) ?_ ?_
      · exact List.mem_flatMap.mpr ⟨r, hrm, hid ▸ List.mem_map_of_mem Game.id hgm⟩
      · refine List.mem_flatMap.mpr ⟨reg₁, h₁, ?_⟩
        exact List.mem_flatMap.mpr ⟨r₁, hr₁, he ▸ List.mem_map_of_mem Game.id hg₁⟩
    | none =>
      rw [replaceInRegions, hr] at h
      rcases Option.map_eq_some'.mp h with ⟨regs₁, hregs₁, hcons⟩
      subst hcons
      rw [List.map_cons,
        map_roundPatch_of_no_match u reg.rounds ((replaceInRounds_none_iff u reg.rounds).mp hr),
        ih regs₁ hregs₁ hnd₂]

/-- One merged update equals the pointwise singleton patch of the whole tree,
provided game ids are unique across the tree. -/
lemma mergeUpdate_eq_mapGames (t : Tournament) (u : Game)
    (h : t.allGameIds.Nodup) :
    t.mergeUpdate u = Tournament.mapGames (patchGame [u]) t := by
  unfold Tournament.mergeUpdate
  cases hrep : replaceInRegions u t.regions with
  | some regs =>
    rw [replaceInRegions_some_eq u t.regions regs hrep
      (by simpa [Tournament.allGameIds] using h)]
    rfl
  | none =>
    have hno := (replaceInRegions_none_iff u t.regions).mp hrep
    rw [Tournament.mapGames, map_regionPatch_of_no_match u t.regions hno]

/-- A merged update never changes the id list of the tree. -/
lemma mergeUpdate_ids (t : Tournament) (u : Game) :
    (t.mergeUpdate u).allGameIds = t.allGameIds := by
  unfold Tournament.mergeUpdate Tournament.allGameIds
  cases hrep : replaceInRegions u t.regions with
  | some regs => simpa using replaceInRegions_some_ids u t.regions regs hrep
  | none => rfl

/-- A game whose id is absent from the batch is untouched by the patch. -/
lemma patchGame_not_mem (us : List Game) (g : Game)
    (h : g.id ∉ us.map Game.id) : patchGame us g = g := by
  unfold patchGame
  rw [List.find?_eq_none.mpr, Option.getD_none]
  intro v hv
  simp only [beq_iff_eq]
  intro he
  exact h (he ▸ List.mem_map_of_mem Game.id hv)

/-- With distinct ids in the batch, a game whose id matches an update becomes
exactly that update. -/
lemma patchGame_mem (us : List Game) (hbatch : (us.map Game.id).Nodup)
    (g u : Game) (hu : u ∈ us) (hid : u.id = g.id) : patchGame us g = u := by
  induction us with
  | nil => cases hu
  | cons v us ih =>
    rcases List.nodup_cons.mp hbatch with ⟨hni, hnd⟩
    rcases List.mem_cons.mp hu with rfl | hu₁
    · unfold patchGame
      rw [List.find?_cons_of_pos _ (by simp [hid]), Option.getD_some]
    · have hv : (v.id == g.id) = false := by
        simp only [beq_eq_false_iff_ne, ne_eq]
        intro he
        exact hni (by rw [he, ← hid]; exact List.mem_map_of_mem Game.id hu₁)
      unfold patchGame
      rw [List.find?_cons_of_neg _ (by simp [hv])]
      exact ih hnd hu₁

/-- Patching first by a fresh singleton and then by the rest of the batch is
patching by the whole batch. -/
lemma patchGame_cons (u : Game) (us : List Game) (g : Game)
    (h : u.id ∉ us.map Game.id) :
    patchGame us (patchGame [u] g) = patchGame (u :: us) g := by
  rw [patchGame_singleton]
  by_cases hid : u.id = g.id
  · rw [if_pos hid]
    have hf : us.find? (fun v => v.id == u.id) = none := by
      rw [List.find?_eq_none]
      intro v hv
      simp only [beq_iff_eq]
      intro he
      exact h (he ▸ List.mem_map_of_mem Game.id hv)
    unfold patchGame
    rw [hf, Option.getD_none, List.find?_cons_of_pos _ (by simp [hid]),
      Option.getD_some]
  · rw [if_neg hid]
    unfold patchGame
    rw [List.find?_cons_of_neg _ (by simp [hid])]

/-- Two pointwise patches compose. -/
lemma mapGames_comp (f g : Game → Game) (t : Tournament) :
    Tournament.mapGames f (Tournament.mapGames g t)
      = Tournament.mapGames (fun x => f (g x)) t := by
  simp [Tournament.mapGames, List.map_map, Function.comp]

/-- The empty patch is the identity. -/
lemma mapGames_patch_nil (t : Tournament) :
    Tournament.mapGames (patchGame []) t = t := by
  unfold Tournament.mapGames
  have hg : ∀ gs : List Game, gs.map (patchGame []) = gs := by
    intro gs
    rw [show patchGame [] = fun g => g from funext patchGame_nil]
    exact List.map_id' gs
  have hr : ∀ rs : List Round,
      (rs.map fun r => { r with games := r.games.map (patchGame []) }) = rs := by
    intro rs
    simp [hg]
  simp [hr]

/-- `Tournament::merge_updates` equals the pointwise batch patch, provided
game ids are unique across the tree and within the batch. -/
lemma merge_updates_pointwise (us : List Game)
    (hbatch : (us.map Game.id).Nodup) :
    ∀ t : Tournament, t.allGameIds.Nodup →
      t.merge_updates us = Tournament.mapGames (patchGame us) t := by
  induction us with
  | nil =>
    intro t hnd
    unfold Tournament.merge_updates
    rw [List.foldl_nil, mapGames_patch_nil]
  | cons u us ih =>
    intro t hnd
    rcases List.nodup_cons.mp hbatch with ⟨hu, hbatch₁⟩
    unfold Tournament.merge_updates
    rw [List.foldl_cons]
    have h1 : (t.mergeUpdate u).allGameIds.Nodup := by
      rw [mergeUpdate_ids]; exact hnd
    have h2 := ih hbatch₁ (t.mergeUpdate u) h1
    unfold Tournament.merge_updates at h2
    rw [h2, mergeUpdate_eq_mapGames t u hnd, mapGames_comp]
    congr 1
    funext g
    exact patchGame_cons u us g hu

-- ===========================================================================
-- C3 — the claim theorem
-- ===========================================================================

/-- C3: after `BracketState::merge_updates` with a loaded tournament whose
game ids are unique across the tree (the data model's invariant) and a batch
with distinct ids, the navigation cursor state (view round, selected region,
selected game, scroll offset) is unchanged, the active round is recomputed
from the patched tree, and the patched tree is the pointwise patch of the old
one: every game whose id is absent from the batch is unchanged in all fields
(`patchGame us g = g`), and every game whose id matches an update equals that
incoming update exactly (`patchGame us g = u`). -/
theorem merge_updates_patches_by_id (bs : BracketState) (t : Tournament)
    (us : List Game) (hbs : bs.tournament = some t)
    (hnd : t.allGameIds.Nodup) (hbatch : (us.map Game.id).Nodup) :
    (bs.merge_updates us).view_round = bs.view_round ∧
    (bs.merge_updates us).selected_region = bs.selected_region ∧
    (bs.merge_updates us).selected_game = bs.selected_game ∧
    (bs.merge_updates us).scroll_offset = bs.scroll_offset ∧
    (bs.merge_updates us).tournament = some (t.merge_updates us) ∧
    (bs.merge_updates us).current_round = detect_active_round (t.merge_updates us) ∧
    t.merge_updates us = Tournament.mapGames (patchGame us) t ∧
    (∀ g : Game, g.id ∉ us.map Game.id → patchGame us g = g) ∧
    (∀ g u : Game, u ∈ us → u.id = g.id → patchGame us g = u) := by
  have hmain := merge_updates_pointwise us hbatch t hnd
  unfold BracketState.merge_updates
  rw [hbs]
  exact ⟨rfl, rfl, rfl, rfl, rfl, rfl, hmain,
    fun g h => patchGame_not_mem us g h,
    fun g u hu hid => patchGame_mem us hbatch g u hu hid⟩

/-- A minimal game used by the C3 witness scenario. -/
def sampleGame (i : String) (st : GameStatus) : Game :=
  { id := i, top := { seed := 0, team := none, placeholder := none },
    bottom := { seed := 0, team := none, placeholder := none },
    status := st, score := none, winner_id := none, period := none,
    clock := none, start_time := none, location := none }

/-- One-region tournament with two scheduled games, for the C3 witness. -/
def sampleTournament : Tournament :=
  { id := "t", name := "T", year := 2025,
    regions :=
      [{ id := "east", name := "East",
         rounds :=
           [{ kind := .First,
              games := [sampleGame "g1" .Scheduled, sampleGame "g2" .Scheduled] }] }] }

/-- Navigation state over `sampleTournament` with a non-trivial cursor. -/
def sampleState : BracketState :=
  { tournament := some sampleTournament, current_round := .First,
    view_round := .Second, selected_region := 0, selected_game := 1,
    scroll_offset := 2 }

/-- Witness for C3: patching game g2 on the concrete state keeps the view
round and rewrites the tree pointwise. -/
theorem merge_updates_patches_by_id_witness :
    (sampleState.merge_updates [sampleGame "g2" .InProgress]).view_round
        = sampleState.view_round ∧
    sampleTournament.merge_updates [sampleGame "g2" .InProgress]
        = Tournament.mapGames (patchGame [sampleGame "g2" .InProgress])
            sampleTournament := by
  have hnd : sampleTournament.allGameIds.Nodup := by
    rw [show sampleTournament.allGameIds = ["g1", "g2"] from rfl]
    simp
  have hbatch : (([sampleGame "g2" .InProgress]).map Game.id).Nodup := by
    rw [show ([sampleGame "g2" .InProgress]).map Game.id = ["g2"] from rfl]
    simp
  have h := merge_updates_patches_by_id sampleState sampleTournament
    [sampleGame "g2" .InProgress] rfl hnd hbatch
  exact ⟨h.1, h.2.2.2.2.2.2.1⟩

end Mmtui
